import Mathlib

/-!
Shallow embedding of the catalog / cart / favorites logic of
`src/app/page.tsx` (the FoodTime single-page food-ordering storefront).

Modelling choices:
* JS strings that are only compared for equality (`category`, `image`,
  `prepTime`, the sort key) are Lean `String`s; strings that undergo
  `toLowerCase` / `includes` / `localeCompare` (`name`, `description`,
  the search term) are `List Char`, with `Char.toLower` and
  `List.isInfixOf` as the corresponding operations.
* JS numbers holding prices and ratings are `ℚ`; cart quantities are `ℤ`
  (the code can store any value, including negative ones, in `quantity`).
* The absent-vs-present optional `popular` flag is a `Bool` (JS treats a
  missing flag as falsy in `b.popular ? 1 : 0`).
* `Array.prototype.sort(cmp)` is required by ECMAScript to be stable and,
  for a consistent comparator, to order `a` before `b` whenever
  `cmp a b ≤ 0`.  Mathlib's `List.insertionSort` on the relation
  `fun a b => cmp a b ≤ 0` is exactly such a stable sort, and the source
  sorts a copy (`[...filteredItems].sort`), so the input list is never
  mutated — in this purely functional embedding every operation returns a
  new list and leaves its argument untouched by construction.
* `localeCompare` is modelled as lexicographic comparison of the
  character lists (a fixed locale-consistent total order); only its
  being a total order on names matters for the properties below.
-/

/-- The `MenuItem` interface of `src/app/page.tsx` (lines 13–23). -/
structure MenuItem where
  id : Nat
  name : List Char
  category : String
  price : ℚ
  description : List Char
  image : String
  rating : ℚ
  popular : Bool
  prepTime : String
  deriving DecidableEq, Repr

/-- The `CartItem` interface (line 32): a `MenuItem` plus a quantity. -/
structure CartItem extends MenuItem where
  quantity : ℤ
  deriving DecidableEq, Repr

/-- `selectedCategory === "all" || item.category === selectedCategory`
(line 52 of `page.tsx`). -/
def matchesCategory (selectedCategory : String) (item : MenuItem) : Bool :=
  selectedCategory == "all" || item.category == selectedCategory

/-- Lowercasing of a JS string, `s.toLowerCase()`. -/
def lowerStr (s : List Char) : List Char :=
  s.map Char.toLower

/-- `item.name.toLowerCase().includes(searchTerm.toLowerCase()) ||
item.description.toLowerCase().includes(searchTerm.toLowerCase())`
(lines 53–55 of `page.tsx`). -/
def matchesSearch (searchTerm : List Char) (item : MenuItem) : Bool :=
  decide (lowerStr searchTerm <:+: lowerStr item.name) ||
    decide (lowerStr searchTerm <:+: lowerStr item.description)

/-- `filteredItems` (lines 51–57 of `page.tsx`). -/
def filteredItems (selectedCategory : String) (searchTerm : List Char)
    (items : List MenuItem) : List MenuItem :=
  items.filter fun item =>
    matchesCategory selectedCategory item && matchesSearch searchTerm item

/-- The comparator passed to `sort` (lines 60–71 of `page.tsx`); only the
sign of the returned number matters to `Array.prototype.sort`.  The
`switch` falls through to `a.name.localeCompare(b.name)` on any key other
than the four listed cases. -/
def sortComparator (sortBy : String) (a b : MenuItem) : ℚ :=
  if sortBy = "price-low" then a.price - b.price
  else if sortBy = "price-high" then b.price - a.price
  else if sortBy = "rating" then b.rating - a.rating
  else if sortBy = "popular" then
    (if b.popular then 1 else 0) - (if a.popular then 1 else 0)
  else if a.name < b.name then -1 else if b.name < a.name then 1 else 0

/-- `sortedItems = [...filteredItems].sort((a, b) => ...)` (lines 59–72):
a stable sort of a copy of the list by the comparator's sign. -/
def sortedItems (sortBy : String) (l : List MenuItem) : List MenuItem :=
  List.insertionSort (fun a b => sortComparator sortBy a b ≤ 0) l

/-- `addToCart` (lines 74–84 of `page.tsx`): increment the quantity of an
existing line for `item.id`, else append a fresh line with quantity 1. -/
def addToCart (item : MenuItem) (prevCart : List CartItem) : List CartItem :=
  match prevCart.find? (fun cartItem => cartItem.id == item.id) with
  | some _ =>
      prevCart.map fun cartItem =>
        if cartItem.id == item.id then
          { cartItem with quantity := cartItem.quantity + 1 }
        else cartItem
  | none => prevCart ++ [{ item with quantity := 1 }]

/-- `removeFromCart` (lines 86–88 of `page.tsx`). -/
def removeFromCart (itemId : Nat) (prevCart : List CartItem) : List CartItem :=
  prevCart.filter fun item => item.id != itemId

/-- `updateQuantity` (lines 90–96 of `page.tsx`): quantity 0 removes the
line; any other quantity is written into every line whose id matches
(a `map`, which leaves the cart unchanged when no line matches). -/
def updateQuantity (itemId : Nat) (newQuantity : ℤ)
    (prevCart : List CartItem) : List CartItem :=
  if newQuantity = 0 then
    removeFromCart itemId prevCart
  else
    prevCart.map fun item =>
      if item.id == itemId then { item with quantity := newQuantity } else item

/-- `toggleFavorite` (lines 98–100 of `page.tsx`). -/
def toggleFavorite (itemId : Nat) (prev : List Nat) : List Nat :=
  if prev.contains itemId then prev.filter (fun id => id != itemId)
  else prev ++ [itemId]

/-- `getTotalPrice` (lines 102–104 of `page.tsx`): a left fold of
`total + item.price * item.quantity` over the cart, starting from 0. -/
def getTotalPrice (cart : List CartItem) : ℚ :=
  cart.foldl (fun total item => total + item.price * (item.quantity : ℚ)) 0

/-- `getTotalItems` (lines 106–108 of `page.tsx`). -/
def getTotalItems (cart : List CartItem) : ℤ :=
  cart.foldl (fun total item => total + item.quantity) 0

/-- A concrete menu item used in the scenario theorems (price 8.99). -/
def margherita : MenuItem :=
  { id := 1
    name := "margherita pizza".toList
    category := "pizza"
    price := 899 / 100
    description := "classic tomato and mozzarella".toList
    image := "/images/margherita.jpg"
    rating := 45 / 10
    popular := true
    prepTime := "15 min" }

/-- A second concrete menu item (price 5, rating 4.0, not popular). -/
def limonata : MenuItem :=
  { id := 2
    name := "limonata".toList
    category := "drinks"
    price := 5
    description := "fresh lemon soda".toList
    image := "/images/limonata.jpg"
    rating := 4
    popular := false
    prepTime := "2 min" }

/-- A third concrete menu item (price 12, rating 4.8, popular). -/
def lasagna : MenuItem :=
  { id := 3
    name := "lasagna".toList
    category := "pasta"
    price := 12
    description := "baked pasta with ragu".toList
    image := "/images/lasagna.jpg"
    rating := 48 / 10
    popular := true
    prepTime := "25 min" }

/-- A fourth concrete menu item (price 8, rating 3.9, not popular). -/
def bruschetta : MenuItem :=
  { id := 4
    name := "bruschetta".toList
    category := "starters"
    price := 8
    description := "grilled bread with tomato".toList
    image := "/images/bruschetta.jpg"
    rating := 39 / 10
    popular := false
    prepTime := "10 min" }

/-- On the key `"price-low"` the comparator is ascending price. -/
theorem sortComparator_price_low (a b : MenuItem) :
    sortComparator "price-low" a b = a.price - b.price := rfl

/-- On the key `"price-high"` the comparator is descending price. -/
theorem sortComparator_price_high (a b : MenuItem) :
    sortComparator "price-high" a b = b.price - a.price := rfl

/-- On the key `"rating"` the comparator is descending rating. -/
theorem sortComparator_rating (a b : MenuItem) :
    sortComparator "rating" a b = b.rating - a.rating := rfl

/-- On the key `"popular"` the comparator is descending on the flag. -/
theorem sortComparator_popular (a b : MenuItem) :
    sortComparator "popular" a b =
      (if b.popular then 1 else 0) - (if a.popular then 1 else 0) := rfl

example : filteredItems "all" "PIZZA".toList [margherita, limonata] =
    [margherita] := rfl
example : (sortedItems "price-high" [limonata, lasagna, bruschetta]).map
    MenuItem.price = [12, 8, 5] := by
  norm_num [sortedItems, sortComparator_price_high, List.insertionSort,
    List.orderedInsert, limonata, lasagna, bruschetta]
example : updateQuantity 1 5 [] = [] := rfl
example : (updateQuantity 1 (-3) [{ margherita with quantity := 2 }]).map
    CartItem.quantity = [-3] := rfl
example : getTotalPrice (addToCart margherita (addToCart margherita [])) =
    1798 / 100 := by
  norm_num [getTotalPrice, addToCart, margherita, List.find?]

/-! ### Generic helper lemmas -/

/-- A left fold accumulating `t + f c` computes `init` plus the sum of the
mapped list. -/
theorem foldl_add_eq_sum {α M : Type} [AddCommMonoid M] (f : α → M) :
    ∀ (l : List α) (init : M),
      l.foldl (fun t c => t + f c) init = init + (l.map f).sum
  | [], init => by simp
  | c :: l, init => by
      rw [List.foldl_cons, foldl_add_eq_sum f l (init + f c)]
      simp [add_assoc]

/-- `orderedInsert` drops an element past a block that refuses it and puts
it in front of a block that accepts it. -/
theorem orderedInsert_append {α : Type} (r : α → α → Prop) [DecidableRel r]
    (x : α) : ∀ (A B : List α), (∀ a ∈ A, ¬ r x a) → (∀ b ∈ B, r x b) →
      List.orderedInsert r x (A ++ B) = A ++ x :: B
  | [], [], _, _ => rfl
  | [], b :: B, _, hB => by
      simp [List.orderedInsert, if_pos (hB b (List.mem_cons_self b B))]
  | a :: A, B, hA, hB => by
      have hne : ¬ r x a := hA a (List.mem_cons_self a A)
      simp only [List.cons_append, List.orderedInsert, if_neg hne]
      exact congrArg (a :: ·)
        (orderedInsert_append r x A B (fun a ha => hA a (List.mem_cons_of_mem _ ha)) hB)

/-- `orderedInsert` only looks at the truth of the relation. -/
theorem orderedInsert_congr {α : Type} {r s : α → α → Prop}
    [DecidableRel r] [DecidableRel s] (hrs : ∀ a b, r a b ↔ s a b) (x : α) :
    ∀ l : List α, List.orderedInsert r x l = List.orderedInsert s x l
  | [] => rfl
  | y :: l => by
      by_cases h : r x y
      · rw [List.orderedInsert_of_le r l h, List.orderedInsert_of_le s l ((hrs x y).mp h)]
      · simp only [List.orderedInsert, if_neg h, if_neg (fun hs => h ((hrs x y).mpr hs))]
        rw [orderedInsert_congr hrs x l]

/-- `insertionSort` only looks at the truth of the relation. -/
theorem insertionSort_congr {α : Type} {r s : α → α → Prop}
    [DecidableRel r] [DecidableRel s] (hrs : ∀ a b, r a b ↔ s a b) :
    ∀ l : List α, List.insertionSort r l = List.insertionSort s l
  | [] => rfl
  | x :: l => by
      simp only [List.insertionSort]
      rw [insertionSort_congr hrs l, orderedInsert_congr hrs x]

/-! ### The claim theorems -/

/-- C7: `getTotalPrice` is the sum over all cart lines of price times
quantity, `getTotalItems` is the sum over all cart lines of quantity, and
both are 0 on the empty cart. -/
theorem getTotals_spec (cart : List CartItem) :
    getTotalPrice cart = (cart.map fun c => c.price * (c.quantity : ℚ)).sum ∧
    getTotalItems cart = (cart.map fun c => c.quantity).sum ∧
    getTotalPrice [] = 0 ∧ getTotalItems [] = 0 := by
  refine ⟨?_, ?_, rfl, rfl⟩
  · rw [getTotalPrice, foldl_add_eq_sum (fun c : CartItem => c.price * (c.quantity : ℚ)) cart 0,
      zero_add]
  · rw [getTotalItems, foldl_add_eq_sum (fun c : CartItem => c.quantity) cart 0, zero_add]

/-- C8: `toggleFavorite` adds an absent id and removes a present one, and
two successive toggles of the same id restore the original favorites set
(equality as sets of ids). -/
theorem toggleFavorite_spec (prev : List Nat) (itemId : Nat) :
    (itemId ∉ prev → toggleFavorite itemId prev = prev ++ [itemId]) ∧
    (itemId ∈ prev → itemId ∉ toggleFavorite itemId prev) ∧
    (∀ y, y ∈ toggleFavorite itemId (toggleFavorite itemId prev) ↔ y ∈ prev) := by
  refine ⟨fun h => by simp [toggleFavorite, h], fun h => by simp [toggleFavorite, h],
    fun y => ?_⟩
  by_cases h : itemId ∈ prev
  · have h1 : toggleFavorite itemId prev = prev.filter fun id => id != itemId := by
      simp [toggleFavorite, h]
    have h2 : itemId ∉ prev.filter fun id => id != itemId := by simp
    rw [h1]
    have h3 : toggleFavorite itemId (prev.filter fun id => id != itemId) =
        (prev.filter fun id => id != itemId) ++ [itemId] := by
      simp [toggleFavorite, List.elem_eq_mem, h2]
    rw [h3]
    by_cases hy : y = itemId
    · subst hy; simp [h]
    · simp [hy, List.mem_filter]
  · have h1 : toggleFavorite itemId prev = prev ++ [itemId] := by
      simp [toggleFavorite, h]
    rw [h1]
    have h3 : toggleFavorite itemId (prev ++ [itemId]) =
        (prev ++ [itemId]).filter fun id => id != itemId := by
      simp [toggleFavorite, List.elem_eq_mem]
    rw [h3]
    have h5 : prev.filter (fun id => id != itemId) = prev :=
      List.filter_eq_self.mpr fun a ha => by
        simp only [bne_iff_ne, ne_eq, decide_eq_true_eq]
        intro he
        exact h (he ▸ ha)
    have h4 : (prev ++ [itemId]).filter (fun id => id != itemId) = prev := by
      rw [List.filter_append, h5]
      simp
    rw [h4]

/-- C8 witness: toggling id 3 in and out of the set `[5]`. -/
theorem toggleFavorite_spec_witness :
    toggleFavorite 3 [5] = [5, 3] ∧ (3 ∈ toggleFavorite 3 (toggleFavorite 3 [5]) ↔ 3 ∈ [5]) :=
  ⟨(toggleFavorite_spec [5] 3).1 (by decide), (toggleFavorite_spec [5] 3).2.2 3⟩

/-- C5: for every sort key the sorted output is a permutation of the
input (in particular the same multiset of ids); the input list itself is
never mutated, the sort operating on a copy. -/
theorem sortedItems_perm (sortBy : String) (l : List MenuItem) :
    (sortedItems sortBy l).Perm l ∧
    ((sortedItems sortBy l).map fun x => x.id).Perm (l.map fun x => x.id) :=
  ⟨List.perm_insertionSort _ l, (List.perm_insertionSort _ l).map _⟩

/-- C3: the filter keeps an item iff it matches the selected category
("all" matches everything) and the case-insensitive search; the output is
a subsequence of the input in which every qualifying item appears exactly
as often as in the input (hence exactly once for distinct items), and the
empty search text matches every item. -/
theorem filteredItems_spec (selectedCategory : String) (searchTerm : List Char)
    (items : List MenuItem) (x : MenuItem) :
    (x ∈ filteredItems selectedCategory searchTerm items ↔
      x ∈ items ∧
        (matchesCategory selectedCategory x && matchesSearch searchTerm x) = true) ∧
    (filteredItems selectedCategory searchTerm items).Sublist items ∧
    (filteredItems selectedCategory searchTerm items).count x =
      (if (matchesCategory selectedCategory x && matchesSearch searchTerm x) = true
        then items.count x else 0) ∧
    matchesSearch [] x = true ∧
    matchesCategory selectedCategory x =
      (selectedCategory == "all" || x.category == selectedCategory) := by
  refine ⟨List.mem_filter, List.filter_sublist items, ?_, ?_, rfl⟩
  · by_cases h : (matchesCategory selectedCategory x && matchesSearch searchTerm x) = true
    · rw [if_pos h, filteredItems]
      exact List.count_filter h
    · rw [if_neg h, List.count_eq_zero]
      intro hx
      exact h (List.mem_filter.mp hx).2
  · simp [matchesSearch, lowerStr, List.nil_infix]

/-- On the default branch (any unrecognised key, e.g. `"name"`) the
comparator is the name comparison. -/
theorem sortComparator_name (a b : MenuItem) :
    sortComparator "name" a b =
      if a.name < b.name then -1 else if b.name < a.name then 1 else 0 := rfl

/-- Any key other than the four recognised ones takes the default branch
of the `switch`. -/
theorem sortComparator_default (k : String) (h1 : k ≠ "price-low")
    (h2 : k ≠ "price-high") (h3 : k ≠ "rating") (h4 : k ≠ "popular")
    (a b : MenuItem) :
    sortComparator k a b =
      if a.name < b.name then -1 else if b.name < a.name then 1 else 0 := by
  rw [sortComparator, if_neg h1, if_neg h2, if_neg h3, if_neg h4]

/-- The sign of the name comparator is the lexicographic order on names. -/
theorem name_rel_iff (a b : MenuItem) :
    ((if a.name < b.name then (-1 : ℚ) else if b.name < a.name then 1 else 0) ≤ 0) ↔
      a.name ≤ b.name := by
  rcases lt_trichotomy a.name b.name with h | h | h
  · rw [if_pos h]
    exact iff_of_true (by norm_num) h.le
  · rw [if_neg (h ▸ lt_irrefl a.name), if_neg (h ▸ lt_irrefl a.name)]
    exact iff_of_true (by norm_num) h.le
  · rw [if_neg (asymm h), if_pos h]
    exact iff_of_false (by norm_num) (not_le.mpr h)

/-- The stable sort is pairwise-ordered by any total transitive relation
that agrees with the comparator's sign. -/
theorem sortedItems_pairwise (k : String) (le : MenuItem → MenuItem → Prop)
    (hk : ∀ a b, (sortComparator k a b ≤ 0) ↔ le a b)
    (htot : ∀ a b, le a b ∨ le b a)
    (htr : ∀ a b c, le a b → le b c → le a c) (l : List MenuItem) :
    (sortedItems k l).Pairwise le := by
  haveI : IsTotal MenuItem fun a b => sortComparator k a b ≤ 0 :=
    ⟨fun a b => by
      rw [hk a b, hk b a]
      exact htot a b⟩
  haveI : IsTrans MenuItem fun a b => sortComparator k a b ≤ 0 :=
    ⟨fun a b c hab hbc => by
      rw [hk a b] at hab
      rw [hk b c] at hbc
      rw [hk a c]
      exact htr a b c hab hbc⟩
  exact (List.sorted_insertionSort (fun a b => sortComparator k a b ≤ 0) l).imp
    fun h => (hk _ _).mp h

/-- Under the `"popular"` key the stable sort puts the popular block (in
input order) before the unpopular block (in input order). -/
theorem sortedItems_popular_eq (l : List MenuItem) :
    sortedItems "popular" l =
      (l.filter fun x => x.popular) ++ (l.filter fun x => !x.popular) := by
  induction l with
  | nil => rfl
  | cons x xs ih =>
    have hr : ∀ a b : MenuItem, (sortComparator "popular" a b ≤ 0) ↔
        ((if b.popular then (1 : ℚ) else 0) ≤ if a.popular then 1 else 0) := by
      intro a b
      rw [sortComparator_popular]
      exact sub_nonpos
    show List.orderedInsert _ x (sortedItems "popular" xs) = _
    rw [ih]
    by_cases hx : x.popular
    · have hall : ∀ b ∈ (xs.filter fun x => x.popular) ++ (xs.filter fun x => !x.popular),
          sortComparator "popular" x b ≤ 0 := by
        intro b _
        rw [hr, hx]
        by_cases hb : b.popular <;> simp [hb]
      have := orderedInsert_append (fun a b => sortComparator "popular" a b ≤ 0) x
        [] ((xs.filter fun x => x.popular) ++ (xs.filter fun x => !x.popular))
        (by simp) hall
      rw [List.nil_append] at this
      rw [this, List.filter_cons_of_pos hx, List.filter_cons_of_neg (by simp [hx])]
      simp
    · have hxb : x.popular = false := Bool.eq_false_iff.mpr hx
      have hA : ∀ a ∈ xs.filter fun x => x.popular, ¬ sortComparator "popular" x a ≤ 0 := by
        intro a ha
        have hap : a.popular = true := (List.mem_filter.mp ha).2
        rw [hr, hap, hxb]
        norm_num
      have hB : ∀ b ∈ xs.filter fun x => !x.popular, sortComparator "popular" x b ≤ 0 := by
        intro b hb
        have hbp : b.popular = false := by simpa using (List.mem_filter.mp hb).2
        rw [hr, hbp, hxb]
      rw [orderedInsert_append (fun a b => sortComparator "popular" a b ≤ 0) x
        (xs.filter fun x => x.popular) (xs.filter fun x => !x.popular) hA hB,
        List.filter_cons_of_neg (by simp [hxb]), List.filter_cons_of_pos (by simp [hxb])]

/-- C6: the sorted output is ordered according to the selected key:
popular items first with input order preserved among equals, ascending
price under `"price-low"`, descending price under `"price-high"` (so the
prices `[5, 12, 8]` come out `[12, 8, 5]`), descending rating under
`"rating"`. -/
theorem sortedItems_ordered_spec (l : List MenuItem) :
    sortedItems "popular" l =
      (l.filter fun x => x.popular) ++ (l.filter fun x => !x.popular) ∧
    (sortedItems "price-low" l).Pairwise (fun a b => a.price ≤ b.price) ∧
    (sortedItems "price-high" l).Pairwise (fun a b => b.price ≤ a.price) ∧
    (sortedItems "rating" l).Pairwise (fun a b => b.rating ≤ a.rating) ∧
    (sortedItems "price-high" [limonata, lasagna, bruschetta]).map
      (fun x => x.price) = [12, 8, 5] := by
  refine ⟨sortedItems_popular_eq l, ?_, ?_, ?_, ?_⟩
  · exact sortedItems_pairwise _ (fun a b => a.price ≤ b.price)
      (fun a b => by
        rw [sortComparator_price_low]
        exact sub_nonpos)
      (fun a b => le_total _ _) (fun a b c hab hbc => le_trans hab hbc) l
  · exact sortedItems_pairwise _ (fun a b => b.price ≤ a.price)
      (fun a b => by
        rw [sortComparator_price_high]
        exact sub_nonpos)
      (fun a b => le_total _ _) (fun a b c hab hbc => le_trans hbc hab) l
  · exact sortedItems_pairwise _ (fun a b => b.rating ≤ a.rating)
      (fun a b => by
        rw [sortComparator_rating]
        exact sub_nonpos)
      (fun a b => le_total _ _) (fun a b c hab hbc => le_trans hbc hab) l
  · norm_num [sortedItems, sortComparator_price_high, List.insertionSort,
      List.orderedInsert, limonata, lasagna, bruschetta]

/-- C10: every key other than the four recognised ones — `"name"` as well
as any unrecognised string — falls through to the default branch and
yields the list sorted by ascending name comparison (no error, and not
the input order: a concrete out-of-order pair is reordered). -/
theorem sortedItems_default_spec (k : String) (l : List MenuItem)
    (h1 : k ≠ "price-low") (h2 : k ≠ "price-high") (h3 : k ≠ "rating")
    (h4 : k ≠ "popular") :
    sortedItems k l = sortedItems "name" l ∧
    (sortedItems k l).Pairwise (fun a b => a.name ≤ b.name) ∧
    sortedItems "name" [lasagna, bruschetta] = [bruschetta, lasagna] := by
  have hcmp : ∀ a b : MenuItem, sortComparator k a b = sortComparator "name" a b :=
    fun a b =>
      (sortComparator_default k h1 h2 h3 h4 a b).trans (sortComparator_name a b).symm
  refine ⟨insertionSort_congr (fun a b => by rw [hcmp a b]) l, ?_, ?_⟩
  · exact sortedItems_pairwise k (fun a b => a.name ≤ b.name)
      (fun a b => by
        rw [sortComparator_default k h1 h2 h3 h4]
        exact name_rel_iff a b)
      (fun a b => le_total _ _) (fun a b c hab hbc => le_trans hab hbc) l
  · rfl

/-- C10 witness: the unrecognised key `"oldest"` sorts by name. -/
theorem sortedItems_default_spec_witness :
    sortedItems "oldest" [lasagna, bruschetta] = sortedItems "name" [lasagna, bruschetta] ∧
    sortedItems "name" [lasagna, bruschetta] = [bruschetta, lasagna] :=
  ⟨(sortedItems_default_spec "oldest" [lasagna, bruschetta] (by decide) (by decide)
      (by decide) (by decide)).1,
    (sortedItems_default_spec "oldest" [lasagna, bruschetta] (by decide) (by decide)
      (by decide) (by decide)).2.2⟩


/-- When no cart line carries the item's id, `addToCart` appends a fresh
line with quantity 1. -/
theorem addToCart_of_absent (item : MenuItem) (cart : List CartItem)
    (h : ∀ c ∈ cart, c.id ≠ item.id) :
    addToCart item cart = cart ++ [{ item with quantity := 1 }] := by
  have hnone : cart.find? (fun c => c.id == item.id) = none :=
    List.find?_eq_none.mpr fun c hc => by simpa using h c hc
  unfold addToCart
  rw [hnone]

/-- When some cart line carries the item's id, `addToCart` increments the
quantity of every matching line (hence of the unique one, under the
distinct-ids invariant) and leaves every other line unchanged. -/
theorem addToCart_of_present (item : MenuItem) (cart : List CartItem)
    (h : ∃ c ∈ cart, c.id = item.id) :
    addToCart item cart = cart.map fun c =>
      if c.id = item.id then { c with quantity := c.quantity + 1 } else c := by
  obtain ⟨c0, hc0, hid⟩ := h
  have hsome : (cart.find? fun c => c.id == item.id).isSome :=
    List.find?_isSome.mpr ⟨c0, hc0, by simp [hid]⟩
  cases hfind : cart.find? fun c => c.id == item.id with
  | none => rw [hfind] at hsome; simp at hsome
  | some e =>
      unfold addToCart
      rw [hfind]
      exact List.map_congr_left fun c _ => by
        by_cases hc : c.id = item.id <;> simp [hc]

/-- C4: `addToCart` always succeeds; it appends a quantity-1 line when the
item's id is absent and increments the matching line (all other fields
and lines unchanged) when it is present; adding the same item twice to a
cart not containing it leaves exactly one line for it, with quantity 2,
and from the empty cart an 8.99 item gives total price 17.98 and item
count 2. -/
theorem addToCart_spec (cart : List CartItem) (item : MenuItem) :
    ((∀ c ∈ cart, c.id ≠ item.id) →
      addToCart item cart = cart ++ [{ item with quantity := 1 }]) ∧
    ((∃ c ∈ cart, c.id = item.id) →
      addToCart item cart = cart.map fun c =>
        if c.id = item.id then { c with quantity := c.quantity + 1 } else c) ∧
    ((∀ c ∈ cart, c.id ≠ item.id) →
      (addToCart item (addToCart item cart)).filter (fun c => c.id == item.id) =
        [{ item with quantity := 2 }]) ∧
    (item.price = 899 / 100 →
      getTotalPrice (addToCart item (addToCart item [])) = 1798 / 100 ∧
      getTotalItems (addToCart item (addToCart item [])) = 2) := by
  have hdouble : addToCart item (addToCart item []) = [{ item with quantity := 2 }] := by
    have h1 : addToCart item [] = [{ item with quantity := 1 }] :=
      addToCart_of_absent item [] (by simp)
    rw [h1, addToCart_of_present item [{ item with quantity := 1 }]
      ⟨{ item with quantity := 1 }, List.mem_cons_self _ _, rfl⟩]
    simp
  refine ⟨addToCart_of_absent item cart, addToCart_of_present item cart, ?_, ?_⟩
  · intro h
    have hmap : (cart.map fun c =>
        if c.id = item.id then { c with quantity := c.quantity + 1 } else c) = cart := by
      rw [List.map_congr_left fun c hc => if_neg (h c hc), List.map_id']
    have hnil : cart.filter (fun c => c.id == item.id) = [] :=
      List.filter_eq_nil_iff.mpr fun c hc => by simpa using h c hc
    rw [addToCart_of_absent item cart h,
      addToCart_of_present item (cart ++ [{ item with quantity := 1 }])
        ⟨{ item with quantity := 1 },
          List.mem_append_right _ (List.mem_cons_self _ _), rfl⟩,
      List.map_append, List.filter_append, hmap, hnil]
    simp
  · intro hp
    rw [hdouble]
    refine ⟨?_, rfl⟩
    show (0 : ℚ) + item.price * ((2 : ℤ) : ℚ) = 1798 / 100
    rw [hp]
    norm_num

/-- C4 witness: the empty cart and the 8.99 margherita. -/
theorem addToCart_spec_witness :
    addToCart margherita [] = [{ margherita with quantity := 1 }] ∧
    getTotalPrice (addToCart margherita (addToCart margherita [])) = 1798 / 100 :=
  ⟨(addToCart_spec [] margherita).1 (by simp),
    ((addToCart_spec [] margherita).2.2.2 rfl).1⟩

/-- C1 counterexample: with an empty cart, id 1 and quantity 5 > 0,
`updateQuantity` leaves the cart empty — no line for the id is created,
contradicting the claim that a line with quantity 5 then exists. -/
theorem updateQuantity_no_create : updateQuantity 1 5 [] = [] ∧ (0 : ℤ) < 5 :=
  ⟨rfl, by decide⟩

/-- C1 (amended): for n > 0, `updateQuantity` maps the cart in place —
the line for the id (if any) gets quantity exactly n and every other
line is left unchanged, in its position; in particular it is a no-op
(creating nothing) when no line for the id exists, and when one exists
the result contains it with quantity n. -/
theorem updateQuantity_pos_spec (cart : List CartItem) (itemId : Nat) (n : ℤ)
    (hn : 0 < n) :
    updateQuantity itemId n cart =
      (cart.map fun c => if c.id = itemId then { c with quantity := n } else c) ∧
    ((∀ c ∈ cart, c.id ≠ itemId) → updateQuantity itemId n cart = cart) ∧
    ((∃ c ∈ cart, c.id = itemId) →
      ∃ c ∈ updateQuantity itemId n cart, c.id = itemId ∧ c.quantity = n) := by
  have hdef : updateQuantity itemId n cart =
      cart.map fun c => if c.id = itemId then { c with quantity := n } else c := by
    rw [updateQuantity, if_neg (ne_of_gt hn)]
    exact List.map_congr_left fun c _ => by
      by_cases hc : c.id = itemId <;> simp [hc]
  refine ⟨hdef, ?_, ?_⟩
  · intro h
    rw [hdef, List.map_congr_left fun c hc => if_neg (h c hc), List.map_id']
  · rintro ⟨c0, hc0, hid⟩
    rw [hdef]
    refine ⟨(fun c : CartItem =>
        if c.id = itemId then { c with quantity := n } else c) c0,
      List.mem_map_of_mem _ hc0, ?_⟩
    simp [hid]

/-- C1 witness: quantity 5 for id 9, which no line of the one-line cart
carries, leaves the cart as it was. -/
theorem updateQuantity_pos_spec_witness :
    updateQuantity 9 5 [{ margherita with quantity := 2 }] =
      [{ margherita with quantity := 2 }] :=
  (updateQuantity_pos_spec [{ margherita with quantity := 2 }] 9 5 (by decide)).2.1
    (by decide)

/-- C2 at the failing input: on a cart holding the line for id 1 with
quantity 2, `updateQuantity 1 (-3)` silently stores the negative
quantity -3 (the call neither fails nor leaves the cart unchanged). -/
theorem updateQuantity_negative_stored :
    (updateQuantity 1 (-3) [{ margherita with quantity := 2 }]).map
      (fun c => c.quantity) = [-3] ∧
    (([{ margherita with quantity := 2 }] : List CartItem).map
      fun c => c.quantity) = [2] :=
  ⟨rfl, rfl⟩

/-- C9: starting from a cart whose line ids are pairwise distinct, each of
`addToCart`, `removeFromCart` and `updateQuantity` yields a cart whose
line ids are pairwise distinct. -/
theorem cart_nodup_preserved (cart : List CartItem) (item : MenuItem)
    (itemId : Nat) (n : ℤ) (h : (cart.map fun c => c.id).Nodup) :
    ((addToCart item cart).map fun c => c.id).Nodup ∧
    ((removeFromCart itemId cart).map fun c => c.id).Nodup ∧
    ((updateQuantity itemId n cart).map fun c => c.id).Nodup := by
  have hremove : ∀ j : Nat, ((removeFromCart j cart).map fun c => c.id).Nodup :=
    fun j => ((List.filter_sublist cart).map fun c => c.id).nodup h
  have hmapid : ∀ f : CartItem → CartItem, (∀ c, (f c).id = c.id) →
      ((cart.map f).map fun c => c.id).Nodup := by
    intro f hf
    rw [List.map_map]
    have hcomp : ((fun c : CartItem => c.id) ∘ f) = fun c : CartItem => c.id :=
      funext fun c => hf c
    rw [hcomp]
    exact h
  refine ⟨?_, hremove itemId, ?_⟩
  · cases hfind : cart.find? fun c => c.id == item.id with
    | some e =>
        unfold addToCart
        rw [hfind]
        exact hmapid _ fun c => by by_cases hb : c.id = item.id <;> simp [hb]
    | none =>
        unfold addToCart
        rw [hfind, List.map_append]
        have habsent : item.id ∉ cart.map fun c => c.id := by
          intro hmem
          obtain ⟨c, hc, hcid⟩ := List.mem_map.mp hmem
          exact absurd (by simpa using hcid) (by simpa using List.find?_eq_none.mp hfind c hc)
        simp [List.nodup_append, h, habsent]
  · by_cases h0 : n = 0
    · rw [updateQuantity, if_pos h0]
      exact hremove itemId
    · rw [updateQuantity, if_neg h0]
      exact hmapid _ fun c => by by_cases hb : c.id = itemId <;> simp [hb]

/-- C9 witness: the invariant holds after each operation on a distinct-id
one-line cart. -/
theorem cart_nodup_preserved_witness :
    ((addToCart lasagna [{ margherita with quantity := 2 }]).map
      fun c => c.id).Nodup :=
  (cart_nodup_preserved [{ margherita with quantity := 2 }] lasagna 1 5
    (by decide)).1
